import Mathlib

/-!
Shallow embedding of the Gardens authorization core
(`proto/src/auth.rs`, `proto/src/identity.rs`, `proto/src/path.rs`,
`proto/src/entries.rs`, `proto/src/types.rs`, and the access-control
service defined in `proto/tests/auth_capabilities_integration.rs` and
`proto/tests/auth_path_integration.rs`), together with theorems settling
the frozen claims about it.

Rust `Vec<u8>` is modelled as `List Nat`, `Timestamp` (`i64`) as `Int`,
and strings as Lean `String`.
-/

namespace Gardens

/-- `Capability` from `proto/src/identity.rs`. -/
inductive Capability where
  | ReadMessages (pattern : String)
  | WriteMessages (pattern : String)
  | ManageGroup (pattern : String)
  | ManageDevice (pattern : String)
  | CreateInvites
  | AdminAccess
deriving DecidableEq, Repr

/-- `AuthToken` from `proto/src/auth.rs`.  `signature: Option<Vec<u8>>` is
modelled as `Option (List Nat)` and `expires_at: Timestamp = i64` as `Int`. -/
structure AuthToken where
  user_id : String
  device_id : String
  capabilities : List Capability
  signature : Option (List Nat)
  expires_at : Int
deriving DecidableEq, Repr

/-- `AuthToken::is_valid` from `proto/src/auth.rs`: `self.expires_at > now`. -/
def AuthToken.is_valid (t : AuthToken) (now : Int) : Bool :=
  t.expires_at > now

/-- `AuthToken::has_capability` from `proto/src/auth.rs`, stated on the
capability list.  Direct containment first, then, for the four
pattern-carrying variants, a scan of the held list for a same-kind
capability whose pattern is `"*"` or equal to the required target. -/
def hasCapability (caps : List Capability) (required : Capability) : Bool :=
  if required ∈ caps then
    true
  else
    match required with
    | .ReadMessages target =>
        caps.any fun cap =>
          match cap with
          | .ReadMessages pattern => decide (pattern = "*") || decide (pattern = target)
          | _ => false
    | .WriteMessages target =>
        caps.any fun cap =>
          match cap with
          | .WriteMessages pattern => decide (pattern = "*") || decide (pattern = target)
          | _ => false
    | .ManageGroup target =>
        caps.any fun cap =>
          match cap with
          | .ManageGroup pattern => decide (pattern = "*") || decide (pattern = target)
          | _ => false
    | .ManageDevice target =>
        caps.any fun cap =>
          match cap with
          | .ManageDevice pattern => decide (pattern = "*") || decide (pattern = target)
          | _ => false
    | _ => false

/-- `AuthToken::has_capability` as a method on the token. -/
def AuthToken.has_capability (t : AuthToken) (required : Capability) : Bool :=
  hasCapability t.capabilities required

/-- `MessageType` from `proto/src/types.rs`. -/
inductive MessageType where
  | Text
  | Media
  | Reply (to_message_id : String)
  | Edit (original_message_id : String)
  | Delete (message_id : String)
  | Reaction (message_id : String) (reaction : String)
deriving DecidableEq, Repr

/-- `ProfileField` from `proto/src/types.rs`. -/
inductive ProfileField where
  | DisplayName | Avatar | Bio | PublicKey | DeviceList | Settings
deriving DecidableEq, Repr

/-- `RequestStatus` from `proto/src/types.rs`. -/
inductive RequestStatus where
  | Pending | Accepted | Rejected | Cancelled
deriving DecidableEq, Repr

/-- `KeyType` from `proto/src/types.rs`. -/
inductive KeyType where
  | Identity | Messaging | GroupAccess | DeviceAuth
deriving DecidableEq, Repr

/-- `GroupRole` from `proto/src/types.rs`. -/
inductive GroupRole where
  | Owner | Admin | Member | Invited
deriving DecidableEq, Repr

/-- `AttachmentMetadata` from `proto/src/types.rs`. -/
structure AttachmentMetadata where
  name : String
  mime_type : String
  size : Nat
  thumbnail : Option (List Nat)
deriving DecidableEq, Repr

/-- `AttachmentRef` from `proto/src/types.rs`. -/
structure AttachmentRef where
  hash : String
  encryption_key : List Nat
  metadata : AttachmentMetadata
deriving DecidableEq, Repr

/-- `SubspaceId` from `proto/src/types.rs`. -/
structure SubspaceId where
  val : String
deriving DecidableEq, Repr

/-- `GardenEntry` from `proto/src/entries.rs`, with all ten variants and
their fields in source order. -/
inductive GardenEntry where
  | DirectMessage (sender_id recipient_id thread_id : String)
      (subspace_id : SubspaceId) (encrypted_content : List Nat)
      (timestamp : Int) (message_type : MessageType)
      (attachments : List AttachmentRef)
  | GroupMessage (group_id sender_id : String) (subspace_id : SubspaceId)
      (encrypted_content : List Nat) (timestamp : Int)
      (message_type : MessageType) (attachments : List AttachmentRef)
  | FriendRequest (from_ to_ : String) (subspace_id : SubspaceId)
      (status : RequestStatus) (timestamp : Int)
  | BlockedUser (user_id blocked_user : List Nat) (subspace_id : SubspaceId)
      (timestamp : Int)
  | MutedUser (user_id muted_user : List Nat) (subspace_id : SubspaceId)
      (timestamp : Int)
  | Profile (user_id : String) (subspace_id : SubspaceId)
      (field_type : ProfileField) (content : List Nat) (timestamp : Int)
  | SlashCommand (command : String) (description : Option String)
      (handler_url visibility creator_id : String)
      (group_id : Option String) (timestamp : Int)
      (bot_token : Option String)
  | DeviceKey (user_id device_id : String) (key_type : KeyType)
      (public_key signature : List Nat) (timestamp : Int)
  | GroupMeta (group_id : String) (subspace_id : SubspaceId)
      (encrypted_meta : List Nat) (timestamp : Int)
  | GroupMember (group_id user_id : String) (role : GroupRole)
      (encrypted_key : List Nat) (timestamp : Int)
deriving DecidableEq, Repr

/-- `AuthError` from `proto/tests/auth_capabilities_integration.rs`. -/
inductive AuthError where
  | InvalidToken
  | TokenExpired
  | InsufficientCapabilities
  | IdentityMismatch
  | Other (msg : String)
deriving DecidableEq, Repr

/-- `validate_path` from `proto/src/path.rs`:
`!path.is_empty() && !path.contains("..")`.  The substring test is
modelled on the character list. -/
def validate_path (path : String) : Bool :=
  !path.isEmpty && !(decide ("..".toList <:+: path.toList))

/-- Rust `str::split(sep)` on a single character, modelled on character
lists: splitting the empty string yields one empty segment, and every
separator occurrence starts a new (possibly empty) segment. -/
def splitChar (sep : Char) : List Char → List (List Char)
  | [] => [[]]
  | c :: cs =>
    if c = sep then
      [] :: splitChar sep cs
    else
      match splitChar sep cs with
      | h :: t => (c :: h) :: t
      | [] => [[c]]

/-- `path.0.split('/').collect::<Vec<&str>>()` from
`proto/tests/auth_path_integration.rs`. -/
def splitPath (path : String) : List String :=
  (splitChar '/' path.toList).map fun l => ⟨l⟩

/-- `can_access_path` from `proto/tests/auth_path_integration.rs`:
boolean path-based access control, default deny. -/
def can_access_path (token : AuthToken) (path : String) (now : Int) : Bool :=
  if !token.is_valid now then
    false
  else if !validate_path path then
    false
  else
    match splitPath path with
    | kind :: c1 :: rest =>
      if kind = "profiles" then
        if token.user_id = c1 then
          true
        else if rest.head? = some "public" then
          token.has_capability (.ReadMessages ("profiles/" ++ c1 ++ "/public"))
            || token.has_capability (.ReadMessages ("profiles/" ++ c1))
        else
          token.has_capability (.ReadMessages ("profiles/" ++ c1))
      else if kind = "messages" then
        match rest with
        | recipient :: _ :: _ =>
          if token.user_id = c1 || token.user_id = recipient then
            true
          else
            token.has_capability
              (.ReadMessages ("messages/" ++ c1 ++ "/" ++ recipient))
        | _ => false
      else if kind = "groups" then
        if rest.head? = some "messages" then
          token.has_capability (.ReadMessages ("groups/" ++ c1))
        else
          token.has_capability (.ManageGroup c1)
      else if kind = "devices" then
        if token.user_id = c1 then
          true
        else
          token.has_capability (.ManageDevice c1)
      else
        false
    | _ => false

/-- `AccessControlService::can_access_entry` from
`proto/tests/auth_capabilities_integration.rs`. -/
def can_access_entry (token : AuthToken) (entry : GardenEntry) (now : Int) :
    Except AuthError Bool :=
  if !token.is_valid now then
    .error .TokenExpired
  else
    match entry with
    | .DirectMessage sender_id recipient_id _ _ _ _ _ _ =>
      if token.user_id ≠ sender_id ∧ token.user_id ≠ recipient_id then
        if !token.has_capability (.ReadMessages recipient_id) then
          .error .InsufficientCapabilities
        else .ok true
      else .ok true
    | .GroupMessage group_id _ _ _ _ _ _ =>
      if !token.has_capability (.ReadMessages ("group:" ++ group_id)) then
        if !token.has_capability (.ManageGroup group_id) then
          .error .InsufficientCapabilities
        else .ok true
      else .ok true
    | .Profile user_id _ _ _ _ =>
      if token.user_id ≠ user_id then
        if !token.has_capability (.ReadMessages ("profile:" ++ user_id)) then
          .error .InsufficientCapabilities
        else .ok true
      else .ok true
    | .GroupMeta group_id _ _ _ =>
      if !token.has_capability (.ManageGroup group_id) then
        .error .InsufficientCapabilities
      else .ok true
    | .GroupMember group_id _ _ _ _ =>
      if !token.has_capability (.ManageGroup group_id) then
        .error .InsufficientCapabilities
      else .ok true
    | _ => .ok true

/-- `AccessControlService::can_create_entry` from
`proto/tests/auth_capabilities_integration.rs`. -/
def can_create_entry (token : AuthToken) (entry : GardenEntry) (now : Int) :
    Except AuthError Bool :=
  if !token.is_valid now then
    .error .TokenExpired
  else
    match entry with
    | .DirectMessage sender_id _ _ _ _ _ _ _ =>
      if token.user_id ≠ sender_id then
        .error .IdentityMismatch
      else if !token.has_capability (.WriteMessages "inbox") then
        .error .InsufficientCapabilities
      else .ok true
    | .GroupMessage group_id sender_id _ _ _ _ _ =>
      if token.user_id ≠ sender_id then
        .error .IdentityMismatch
      else if !token.has_capability (.WriteMessages ("group:" ++ group_id)) then
        .error .InsufficientCapabilities
      else .ok true
    | .GroupMeta group_id _ _ _ =>
      if !token.has_capability (.ManageGroup group_id) then
        .error .InsufficientCapabilities
      else .ok true
    | .GroupMember group_id _ _ _ _ =>
      if !token.has_capability (.ManageGroup group_id) then
        .error .InsufficientCapabilities
      else .ok true
    | _ => .ok true

/-- Little-endian fixed 8-byte encoding of a `u64`, as bincode writes
lengths and unsigned integers. -/
def encU64 (n : Nat) : List Nat :=
  [n % 256, n / 256 % 256, n / 256 ^ 2 % 256, n / 256 ^ 3 % 256,
   n / 256 ^ 4 % 256, n / 256 ^ 5 % 256, n / 256 ^ 6 % 256, n / 256 ^ 7 % 256]

/-- Little-endian fixed 4-byte encoding of a `u32`, as bincode writes
enum variant tags. -/
def encU32 (n : Nat) : List Nat :=
  [n % 256, n / 256 % 256, n / 256 ^ 2 % 256, n / 256 ^ 3 % 256]

/-- Two's-complement 8-byte little-endian encoding of an `i64`. -/
def encI64 (i : Int) : List Nat :=
  encU64 (i % (2 ^ 64 : Int)).toNat

/-- bincode encoding of a Rust `String`: `u64` length then the bytes
(modelled as the code points of the characters). -/
def encString (s : String) : List Nat :=
  encU64 s.length ++ s.toList.map Char.toNat

/-- bincode encoding of a `Vec<u8>`: `u64` length then the bytes. -/
def encBytes (bs : List Nat) : List Nat :=
  encU64 bs.length ++ bs

/-- bincode encoding of `Capability`: `u32` variant tag then the pattern
string, if any. -/
def encCapability : Capability → List Nat
  | .ReadMessages p => encU32 0 ++ encString p
  | .WriteMessages p => encU32 1 ++ encString p
  | .ManageGroup p => encU32 2 ++ encString p
  | .ManageDevice p => encU32 3 ++ encString p
  | .CreateInvites => encU32 4
  | .AdminAccess => encU32 5

/-- bincode encoding of `Option<Vec<u8>>`: one tag byte then the value. -/
def encOptBytes : Option (List Nat) → List Nat
  | none => [0]
  | some bs => 1 :: encBytes bs

/-- `bincode::serialize` of an `AuthToken`: the canonical byte encoding
used by `AuthToken::sign` and `AuthToken::verify`, fields in declaration
order. -/
def serializeToken (t : AuthToken) : List Nat :=
  encString t.user_id ++ encString t.device_id ++
    encU64 t.capabilities.length ++ (t.capabilities.map encCapability).flatten ++
    encOptBytes t.signature ++ encI64 t.expires_at

/-- Model of the external Ed25519 primitives (`ed25519_dalek`): keys are
abstract values, `sign` maps a secret key and message to signature bytes,
`verify` checks a signature against a public key, and `pub` derives the
public key of a secret key.  The dalek library itself is outside the
repository; theorems that need its guarantees take them as hypotheses. -/
structure SigScheme where
  pub : Nat → Nat
  sign : Nat → List Nat → List Nat
  verify : Nat → List Nat → List Nat → Bool

/-- `AuthToken::sign` from `proto/src/auth.rs`: serialize the token with
the signature cleared, sign those bytes, and store the signature. -/
def AuthToken.sign (S : SigScheme) (sk : Nat) (t : AuthToken) : AuthToken :=
  let sig := S.sign sk (serializeToken { t with signature := none })
  { t with signature := some sig }

/-- `AuthToken::verify` from `proto/src/auth.rs`: false when no signature
is stored; otherwise re-serialize with the signature cleared, require the
stored bytes to convert to a 64-byte array (`try_into` returning `Err`
yields false), then check the signature cryptographically. -/
def AuthToken.verify (S : SigScheme) (pk : Nat) (t : AuthToken) : Bool :=
  match t.signature with
  | none => false
  | some signature_bytes =>
    if signature_bytes.length = 64 then
      S.verify pk (serializeToken { t with signature := none }) signature_bytes
    else
      false

/-- A sample token loaded with every wildcard capability, for concrete
instantiations. -/
def sampleTok : AuthToken :=
  ⟨"alice", "dev-1",
   [.WriteMessages "*", .ReadMessages "*", .ManageGroup "*",
    .ManageDevice "*", .CreateInvites, .AdminAccess], none, 10⟩

/-- A sample capability-free token, for concrete instantiations. -/
def emptyTok : AuthToken := ⟨"alice", "dev-1", [], none, 10⟩

/-! ## Theorems settling the claims -/

/-- C8: for every token and every time `now`, `is_valid now` holds iff
`expires_at > now`; in particular a token is invalid at exactly its own
`expires_at` (the boundary is strict). -/
theorem is_valid_iff_expires_gt (t : AuthToken) (now : Int) :
    (t.is_valid now = true ↔ t.expires_at > now) ∧
    t.is_valid t.expires_at = false := by
  constructor
  · simp [AuthToken.is_valid]
  · simp [AuthToken.is_valid]

/-- C10: a token holding exactly `[AdminAccess]` satisfies no requirement
other than `AdminAccess` itself: `has_capability` is false on
`ReadMessages t`, `WriteMessages t`, `ManageGroup t`, `ManageDevice t` for
every target `t`, and on `CreateInvites`. -/
theorem adminAccess_is_not_superuser (t : String) :
    hasCapability [Capability.AdminAccess] (.ReadMessages t) = false ∧
    hasCapability [Capability.AdminAccess] (.WriteMessages t) = false ∧
    hasCapability [Capability.AdminAccess] (.ManageGroup t) = false ∧
    hasCapability [Capability.AdminAccess] (.ManageDevice t) = false ∧
    hasCapability [Capability.AdminAccess] Capability.CreateInvites = false := by
  refine ⟨?_, ?_, ?_, ?_, ?_⟩ <;> simp [hasCapability]

/-- C9: `has_capability` depends only on which capabilities are present
in the held list: any two lists with the same members (in particular any
reordering, with or without duplicated entries) give the same result for
every required capability. -/
theorem hasCapability_set_semantics (l₁ l₂ : List Capability)
    (required : Capability) (h : ∀ c : Capability, c ∈ l₁ ↔ c ∈ l₂) :
    hasCapability l₁ required = hasCapability l₂ required := by
  have hany : ∀ f : Capability → Bool, l₁.any f = l₂.any f := by
    intro f
    cases hb : l₂.any f with
    | true =>
      rw [List.any_eq_true] at hb ⊢
      obtain ⟨c, hc, hf⟩ := hb
      exact ⟨c, (h c).2 hc, hf⟩
    | false =>
      rw [List.any_eq_false] at hb ⊢
      intro c hc
      exact hb c ((h c).1 hc)
  by_cases hmem : required ∈ l₁
  · have hmem₂ : required ∈ l₂ := (h required).1 hmem
    unfold hasCapability
    rw [if_pos hmem, if_pos hmem₂]
  · have hmem₂ : required ∉ l₂ := fun hc => hmem ((h required).2 hc)
    unfold hasCapability
    rw [if_neg hmem, if_neg hmem₂]
    cases required <;> first | rfl | exact hany _

/-- Witness for C9 at a concrete reordered, duplicated capability list. -/
theorem hasCapability_set_semantics_witness :
    hasCapability [.ReadMessages "a", .WriteMessages "*"] (.WriteMessages "x") =
      hasCapability [.WriteMessages "*", .ReadMessages "a", .ReadMessages "a"]
        (.WriteMessages "x") :=
  hasCapability_set_semantics _ _ _ (fun c => by
    simp only [List.mem_cons, List.not_mem_nil, or_false]
    tauto)

/-- C3: a token whose `expires_at` is at or before `now` is rejected with
`TokenExpired` by both `can_access_entry` and `can_create_entry`, for
every entry and every capability list: the expiry check precedes every
identity and capability check. -/
theorem expired_token_always_rejected (token : AuthToken)
    (entry : GardenEntry) (now : Int) (h : token.expires_at ≤ now) :
    can_access_entry token entry now = .error .TokenExpired ∧
    can_create_entry token entry now = .error .TokenExpired := by
  have hv : token.is_valid now = false := by
    simp only [AuthToken.is_valid, decide_eq_false_iff_not]
    omega
  constructor
  · unfold can_access_entry
    rw [hv]
    rfl
  · unfold can_create_entry
    rw [hv]
    rfl

/-- Witness for C3: a wildcard-capability token expired one second ago is
rejected with `TokenExpired` on a group-meta entry. -/
theorem expired_token_always_rejected_witness :
    can_access_entry sampleTok (.GroupMeta "g" ⟨"s"⟩ [] 0) 11 =
        .error .TokenExpired ∧
    can_create_entry sampleTok (.GroupMeta "g" ⟨"s"⟩ [] 0) 11 =
        .error .TokenExpired :=
  expired_token_always_rejected sampleTok (.GroupMeta "g" ⟨"s"⟩ [] 0) 11
    (by decide)

/-- C1 counterexample: `can_create_entry` does not check `SlashCommand`'s
`creator_id` at all.  A valid capability-free token for `"charlie"`
creating a `SlashCommand` whose `creator_id` is `"alice"` gets `.ok true`,
not `IdentityMismatch`, refuting the claim for creator-style fields. -/
theorem slashCommand_creator_unchecked :
    can_create_entry ⟨"charlie", "dev-2", [], none, 10⟩
        (.SlashCommand "deploy" none "https://h" "public" "alice" none 0 none)
        0 = .ok true ∧
    ("charlie" : String) ≠ "alice" ∧
    AuthToken.is_valid ⟨"charlie", "dev-2", [], none, 10⟩ 0 = true :=
  ⟨rfl, by decide, by decide⟩

/-- C1 (amended): for the two variants whose sender identity is actually
checked — `DirectMessage` and `GroupMessage` — a valid token whose
`user_id` differs from the entry's `sender_id` gets `IdentityMismatch`
from `can_create_entry`, whatever capabilities it holds (the identity
check precedes the capability check); `SlashCommand`'s `creator_id`, by
contrast, is never compared with the token's `user_id`: creation is
allowed for every valid token. -/
theorem identity_checked_only_for_sender_variants (token : AuthToken)
    (now : Int) (hv : token.is_valid now = true) :
    (∀ s r th sub ec ts mt att, token.user_id ≠ s →
      can_create_entry token (.DirectMessage s r th sub ec ts mt att) now =
        .error .IdentityMismatch) ∧
    (∀ g s sub ec ts mt att, token.user_id ≠ s →
      can_create_entry token (.GroupMessage g s sub ec ts mt att) now =
        .error .IdentityMismatch) ∧
    (∀ cmd des url vis cid gid ts bt,
      can_create_entry token (.SlashCommand cmd des url vis cid gid ts bt)
        now = .ok true) := by
  refine ⟨?_, ?_, ?_⟩ <;> intros <;> unfold can_create_entry <;>
    simp [hv, *]

/-- Witness for the amended C1: the wildcard-laden token for `"alice"`
still gets `IdentityMismatch` when impersonating sender `"bob"`, and
creates a `SlashCommand` crediting `"bob"` unchecked. -/
theorem identity_checked_only_for_sender_variants_witness :
    can_create_entry sampleTok
        (.DirectMessage "bob" "carol" "t0" ⟨"s"⟩ [] 0 .Text []) 0 =
      .error .IdentityMismatch ∧
    can_create_entry sampleTok
        (.GroupMessage "g0" "bob" ⟨"s"⟩ [] 0 .Text []) 0 =
      .error .IdentityMismatch ∧
    can_create_entry sampleTok
        (.SlashCommand "deploy" none "https://h" "public" "bob" none 0 none)
        0 = .ok true :=
  ⟨(identity_checked_only_for_sender_variants sampleTok 0 (by decide)).1
      "bob" "carol" "t0" ⟨"s"⟩ [] 0 .Text [] (by decide),
   (identity_checked_only_for_sender_variants sampleTok 0 (by decide)).2.1
      "g0" "bob" ⟨"s"⟩ [] 0 .Text [] (by decide),
   (identity_checked_only_for_sender_variants sampleTok 0 (by decide)).2.2
      "deploy" none "https://h" "public" "bob" none 0 none⟩

/-- The wildcard scan for `ReadMessages` finds exactly the same-kind
capabilities whose pattern is `"*"` or the target. -/
theorem any_readScan (held : List Capability) (t : String) :
    (held.any fun cap =>
      match cap with
      | Capability.ReadMessages p => decide (p = "*") || decide (p = t)
      | _ => false) = true ↔
    ∃ p, Capability.ReadMessages p ∈ held ∧ (p = "*" ∨ p = t) := by
  rw [List.any_eq_true]
  constructor
  · rintro ⟨cap, hmem, hf⟩
    cases cap <;> simp at hf
    case ReadMessages p => exact ⟨p, hmem, hf⟩
  · rintro ⟨p, hmem, hp⟩
    exact ⟨.ReadMessages p, hmem, by simpa using hp⟩

/-- The wildcard scan for `WriteMessages`, characterized likewise. -/
theorem any_writeScan (held : List Capability) (t : String) :
    (held.any fun cap =>
      match cap with
      | Capability.WriteMessages p => decide (p = "*") || decide (p = t)
      | _ => false) = true ↔
    ∃ p, Capability.WriteMessages p ∈ held ∧ (p = "*" ∨ p = t) := by
  rw [List.any_eq_true]
  constructor
  · rintro ⟨cap, hmem, hf⟩
    cases cap <;> simp at hf
    case WriteMessages p => exact ⟨p, hmem, hf⟩
  · rintro ⟨p, hmem, hp⟩
    exact ⟨.WriteMessages p, hmem, by simpa using hp⟩

/-- The wildcard scan for `ManageGroup`, characterized likewise. -/
theorem any_groupScan (held : List Capability) (t : String) :
    (held.any fun cap =>
      match cap with
      | Capability.ManageGroup p => decide (p = "*") || decide (p = t)
      | _ => false) = true ↔
    ∃ p, Capability.ManageGroup p ∈ held ∧ (p = "*" ∨ p = t) := by
  rw [List.any_eq_true]
  constructor
  · rintro ⟨cap, hmem, hf⟩
    cases cap <;> simp at hf
    case ManageGroup p => exact ⟨p, hmem, hf⟩
  · rintro ⟨p, hmem, hp⟩
    exact ⟨.ManageGroup p, hmem, by simpa using hp⟩

/-- The wildcard scan for `ManageDevice`, characterized likewise. -/
theorem any_deviceScan (held : List Capability) (t : String) :
    (held.any fun cap =>
      match cap with
      | Capability.ManageDevice p => decide (p = "*") || decide (p = t)
      | _ => false) = true ↔
    ∃ p, Capability.ManageDevice p ∈ held ∧ (p = "*" ∨ p = t) := by
  rw [List.any_eq_true]
  constructor
  · rintro ⟨cap, hmem, hf⟩
    cases cap <;> simp at hf
    case ManageDevice p => exact ⟨p, hmem, hf⟩
  · rintro ⟨p, hmem, hp⟩
    exact ⟨.ManageDevice p, hmem, by simpa using hp⟩

/-- C2: `has_capability` succeeds exactly on structural containment, or,
for the four pattern-carrying variants with target `t`, on a held
capability of the same variant kind whose pattern is `"*"` or `t`; for
`CreateInvites` and `AdminAccess` only containment counts.  In
particular `WriteMessages "*"` never satisfies a `ReadMessages`
requirement (kind isolation) while `ReadMessages "*"` satisfies every
`ReadMessages` requirement (wildcard). -/
theorem hasCapability_characterization :
    (∀ (held : List Capability) (required : Capability),
      hasCapability held required = true ↔
        (required ∈ held ∨
          (∃ t, required = .ReadMessages t ∧
            ∃ p, Capability.ReadMessages p ∈ held ∧ (p = "*" ∨ p = t)) ∨
          (∃ t, required = .WriteMessages t ∧
            ∃ p, Capability.WriteMessages p ∈ held ∧ (p = "*" ∨ p = t)) ∨
          (∃ t, required = .ManageGroup t ∧
            ∃ p, Capability.ManageGroup p ∈ held ∧ (p = "*" ∨ p = t)) ∨
          (∃ t, required = .ManageDevice t ∧
            ∃ p, Capability.ManageDevice p ∈ held ∧ (p = "*" ∨ p = t)))) ∧
    (∀ x : String,
      hasCapability [.WriteMessages "*"] (.ReadMessages x) = false) ∧
    (∀ t : String,
      hasCapability [.ReadMessages "*"] (.ReadMessages t) = true) := by
  refine ⟨?_, ?_, ?_⟩
  · intro held required
    by_cases hmem : required ∈ held
    · unfold hasCapability
      rw [if_pos hmem]
      simp [hmem]
    · unfold hasCapability
      rw [if_neg hmem]
      cases required with
      | ReadMessages t =>
        rw [any_readScan]
        simp [hmem]
      | WriteMessages t =>
        rw [any_writeScan]
        simp [hmem]
      | ManageGroup t =>
        rw [any_groupScan]
        simp [hmem]
      | ManageDevice t =>
        rw [any_deviceScan]
        simp [hmem]
      | CreateInvites => simp [hmem]
      | AdminAccess => simp [hmem]
  · intro x
    simp [hasCapability]
  · intro t
    simp [hasCapability]

/-- C5: `verify` returns plain `false` — never a distinct error — when no
signature is stored, and when the stored signature's byte length is not
64; the latter holds for every signature scheme, in particular for one
whose cryptographic check always succeeds, so the length check rejects
before any cryptographic comparison is consulted. -/
theorem verify_false_on_missing_or_wrong_length (S : SigScheme) (pk : Nat)
    (t : AuthToken) :
    (t.signature = none → AuthToken.verify S pk t = false) ∧
    (∀ bs, t.signature = some bs → bs.length ≠ 64 →
      AuthToken.verify S pk t = false) := by
  constructor
  · intro h
    simp [AuthToken.verify, h]
  · intro bs h hlen
    simp [AuthToken.verify, h, hlen]

/-- A scheme whose cryptographic check accepts everything, used to show
that `verify`'s early rejections never consult the scheme. -/
def permissiveScheme : SigScheme :=
  ⟨id, fun _ m => m, fun _ _ _ => true⟩

/-- Witness for C5: even under the always-accepting scheme, a token with
no signature and a token with a 3-byte signature both fail `verify`. -/
theorem verify_false_on_missing_or_wrong_length_witness :
    AuthToken.verify permissiveScheme 0 emptyTok = false ∧
    AuthToken.verify permissiveScheme 0
      { emptyTok with signature := some [1, 2, 3] } = false :=
  ⟨(verify_false_on_missing_or_wrong_length permissiveScheme 0 emptyTok).1
      rfl,
   (verify_false_on_missing_or_wrong_length permissiveScheme 0
      { emptyTok with signature := some [1, 2, 3] }).2 [1, 2, 3] rfl
      (by decide)⟩

/-- C4: for every token — any user, device, capability list (empty
included) and expiry — signing with a secret key and verifying with the
matching public key succeeds, provided the signature scheme is
functionally correct and produces 64-byte signatures (as Ed25519 does):
clearing the signature before re-serialization recovers exactly the
canonically signed bytes. -/
theorem sign_then_verify_succeeds (S : SigScheme) (sk : Nat) (t : AuthToken)
    (hcorrect : ∀ m, S.verify (S.pub sk) m (S.sign sk m) = true)
    (hlen : ∀ m, (S.sign sk m).length = 64) :
    AuthToken.verify S (S.pub sk) (AuthToken.sign S sk t) = true := by
  simp [AuthToken.sign, AuthToken.verify, hlen, hcorrect]

/-- A concrete toy scheme with 64-byte signatures: the signature is 63
zero bytes followed by a key-dependent checksum byte, and verification
recomputes it. -/
def toyScheme : SigScheme :=
  ⟨id,
   fun sk m => List.replicate 63 0 ++ [(m.foldl (· + ·) sk) % 256],
   fun pk m s =>
     decide (s = List.replicate 63 0 ++ [(m.foldl (· + ·) pk) % 256])⟩

/-- Witness for C4: sign-then-verify succeeds on concrete tokens with an
empty and with a wildcard-laden capability list. -/
theorem sign_then_verify_succeeds_witness :
    AuthToken.verify toyScheme (toyScheme.pub 7)
      (AuthToken.sign toyScheme 7 emptyTok) = true ∧
    AuthToken.verify toyScheme (toyScheme.pub 7)
      (AuthToken.sign toyScheme 7 sampleTok) = true :=
  ⟨sign_then_verify_succeeds toyScheme 7 emptyTok
      (fun m => by simp [toyScheme]) (fun m => by simp [toyScheme]),
   sign_then_verify_succeeds toyScheme 7 sampleTok
      (fun m => by simp [toyScheme]) (fun m => by simp [toyScheme])⟩

/-- C6: on a well-formed `profiles/{user}/...` path and a valid token,
access is granted exactly to the user's own token (whatever its
capabilities), to holders of a capability satisfying
`ReadMessages "profiles/{user}/public"` or `ReadMessages "profiles/{user}"`
when the third segment is `public`, and to holders of a capability
satisfying `ReadMessages "profiles/{user}"` on every other sub-path. -/
theorem profiles_path_access (token : AuthToken) (p : String) (now : Int)
    (u : String) (rest : List String)
    (hv : token.is_valid now = true) (hp : validate_path p = true)
    (hs : splitPath p = "profiles" :: u :: rest) :
    can_access_path token p now = true ↔
      (token.user_id = u ∨
        (rest.head? = some "public" ∧
          (token.has_capability
              (.ReadMessages ("profiles/" ++ u ++ "/public")) = true ∨
            token.has_capability (.ReadMessages ("profiles/" ++ u)) = true)) ∨
        (rest.head? ≠ some "public" ∧
          token.has_capability (.ReadMessages ("profiles/" ++ u)) = true)) := by
  unfold can_access_path
  rw [hs, hv, hp]
  by_cases h1 : token.user_id = u
  · simp [h1]
  · by_cases h2 : rest.head? = some "public"
    · simp [h1, h2]
    · simp [h1, h2]

/-- Witness for C6: Alice's capability-free token reads her own public
avatar path; Bob's capability-free token is denied on it. -/
theorem profiles_path_access_witness :
    can_access_path emptyTok "profiles/alice/public/avatar" 0 = true ∧
    can_access_path ⟨"bob", "dev-3", [], none, 10⟩
      "profiles/alice/public/avatar" 0 = false := by
  constructor
  · exact (profiles_path_access emptyTok "profiles/alice/public/avatar" 0
      "alice" ["public", "avatar"] (by decide) (by decide) (by decide)).mpr
      (Or.inl rfl)
  · have h := profiles_path_access ⟨"bob", "dev-3", [], none, 10⟩
      "profiles/alice/public/avatar" 0 "alice" ["public", "avatar"]
      (by decide) (by decide) (by decide)
    cases hb : can_access_path ⟨"bob", "dev-3", [], none, 10⟩
        "profiles/alice/public/avatar" 0
    · rfl
    · rcases h.mp hb with h' | ⟨_, h'⟩ | ⟨h', _⟩
      · exact absurd h' (by decide)
      · rcases h' with h' | h' <;> exact absurd h' (by decide)
      · exact absurd rfl h'

/-- C7: `can_access_path` collapses every malformed input and every
unknown resource kind to plain `false`: an invalid token, a path failing
`validate_path` (which fails exactly on the empty string or a `..`
substring), a path with fewer than two segments, a first segment outside
the four known kinds, and a `messages` path with fewer than four
segments are all denied — the last regardless of whose identities appear
in the path. -/
theorem can_access_path_default_deny :
    (∀ (token : AuthToken) (p : String) (now : Int),
      token.is_valid now = false → can_access_path token p now = false) ∧
    (∀ (token : AuthToken) (p : String) (now : Int),
      validate_path p = false → can_access_path token p now = false) ∧
    (∀ p : String, validate_path p = false ↔
      (p.isEmpty = true ∨ "..".toList <:+: p.toList)) ∧
    (∀ (token : AuthToken) (p : String) (now : Int),
      (splitPath p).length < 2 → can_access_path token p now = false) ∧
    (∀ (token : AuthToken) (p : String) (now : Int) (k c1 : String)
        (rest : List String), splitPath p = k :: c1 :: rest →
      k ≠ "profiles" → k ≠ "messages" → k ≠ "groups" → k ≠ "devices" →
      can_access_path token p now = false) ∧
    (∀ (token : AuthToken) (p : String) (now : Int) (rest : List String),
      splitPath p = "messages" :: rest → rest.length < 3 →
      can_access_path token p now = false) := by
  refine ⟨?_, ?_, ?_, ?_, ?_, ?_⟩
  · intro token p now h
    unfold can_access_path
    rw [h]
    rfl
  · intro token p now h
    unfold can_access_path
    rw [h]
    cases hv : token.is_valid now <;> simp
  · intro p
    unfold validate_path
    cases hb : p.isEmpty <;> simp [hb]
  · intro token p now h
    unfold can_access_path
    rcases hsp : splitPath p with _ | ⟨a, _ | ⟨b, l⟩⟩
    · cases hv : token.is_valid now <;> cases hvp : validate_path p <;> simp
    · cases hv : token.is_valid now <;> cases hvp : validate_path p <;> simp
    · rw [hsp] at h
      simp only [List.length_cons] at h
      omega
  · intro token p now k c1 rest hsp h1 h2 h3 h4
    unfold can_access_path
    rw [hsp]
    cases hv : token.is_valid now <;> cases hvp : validate_path p <;>
      simp [h1, h2, h3, h4]
  · intro token p now rest hsp hlen
    unfold can_access_path
    rcases rest with _ | ⟨c1, _ | ⟨r, _ | ⟨x, l⟩⟩⟩
    · rw [hsp]
      cases hv : token.is_valid now <;> cases hvp : validate_path p <;> simp
    · rw [hsp]
      cases hv : token.is_valid now <;> cases hvp : validate_path p <;> simp
    · rw [hsp]
      cases hv : token.is_valid now <;> cases hvp : validate_path p <;> simp
    · simp at hlen
      omega

/-- Witness for C7 at concrete inputs: an expired-token lookup, a `..`
path, a one-segment path, an unknown kind, and a short `messages` path
naming the token's own user are all denied. -/
theorem can_access_path_default_deny_witness :
    can_access_path sampleTok "profiles/alice" 20 = false ∧
    can_access_path sampleTok "profiles/../alice" 0 = false ∧
    can_access_path sampleTok "profiles" 0 = false ∧
    can_access_path sampleTok "secrets/alice" 0 = false ∧
    can_access_path sampleTok "messages/alice/bob" 0 = false :=
  ⟨can_access_path_default_deny.1 sampleTok "profiles/alice" 20 (by decide),
   can_access_path_default_deny.2.1 sampleTok "profiles/../alice" 0
     (by decide),
   can_access_path_default_deny.2.2.2.1 sampleTok "profiles" 0 (by decide),
   can_access_path_default_deny.2.2.2.2.1 sampleTok "secrets/alice" 0
     "secrets" "alice" [] (by decide) (by decide) (by decide) (by decide)
     (by decide),
   can_access_path_default_deny.2.2.2.2.2 sampleTok "messages/alice/bob" 0
     ["alice", "bob"] (by decide) (by decide)⟩

end Gardens
